import Mathlib

/-
  Verification of tp1/banque/banque.c: a bank-account demo in which a fixed
  table of operations is replayed R times each on a shared account, under one
  of four execution strategies (serial, fork, pthread, pth).

  Machine integers: the account balance and the configured amount/repeat are C
  `long` (64-bit two's complement); `wrap64` is the wrap-around applied at each
  arithmetic step.  The operation amount is a C `int` whose values in the fixed
  table are tiny, so its promotion to `long` is exact.
-/

namespace Banque

/-- 64-bit two's complement wrap of an integer: the representative of
`x` mod 2^64 lying in `[-2^63, 2^63)`.  The literals are `2^63` and `2^64`. -/
def wrap64 (x : Int) : Int :=
  (x + 9223372036854775808) % 18446744073709551616 - 9223372036854775808

/-- The range of a C `long` (64-bit signed). -/
def inRange64 (x : Int) : Prop :=
  -9223372036854775808 ≤ x ∧ x < 9223372036854775808

instance (x : Int) : Decidable (inRange64 x) := by
  unfold inRange64; infer_instance

/-- One entry of the `struct operation` table: the signed `amount` and the
`name` (a C string pointer, `none` standing for `NULL`).  Every entry of the
default table binds the same `global_account`, so the shared balance is
threaded explicitly through the functions below instead of a pointer field. -/
structure Operation where
  amount : Int
  name : Option String
deriving DecidableEq

/-- The static table `ops[]` from banque.c, including its NULL-name
sentinel row. -/
def opsTable : List Operation :=
  [⟨6, some "Montreal"⟩, ⟨-4, some "Paris"⟩, ⟨7, some "Johannesburg"⟩,
   ⟨-3, some "Bangalore"⟩, ⟨0, none⟩]

/-- `nr_ops`: returns 0 on a NULL table pointer, otherwise walks the table
counting entries until the first entry whose `name` is NULL. -/
def nr_ops : Option (List Operation) → Nat
  | none => 0
  | some l => (l.takeWhile fun o => o.name.isSome).length

/-- The operations every strategy actually runs: `ops[0..max-1]` where
`max = nr_ops(ops)`. -/
def activeOps : List Operation :=
  opsTable.take (nr_ops (some opsTable))

/-- Sum of the amounts of the active operations (6 - 4 + 7 - 3 = 6). -/
def sumAmounts : Int :=
  (activeOps.map fun op => op.amount).sum

/-- Number of iterations of the loop in `atm`: the counter `i` is an
`unsigned long` compared against the signed `long` `vars.repeat`, so the
usual arithmetic conversions convert `repeat` to `unsigned long`, i.e. the
bound is `repeat` mod 2^64 taken as a nonnegative value. -/
def iterations (r : Int) : Nat :=
  (r % 18446744073709551616).toNat

/-- The body of `atm`'s loop, `n` times: `balance += amount` in `long`
arithmetic starting from balance `b`. -/
def atmLoop (a : Int) : Nat → Int → Int
  | 0, b => b
  | n + 1, b => atmLoop a n (wrap64 (b + a))

/-- The worker routine `atm`: repeats `balance += op->amount` for
`iterations r` steps on the account balance `b` it is bound to, and then
prints (reports) the balance it observes, which is its return value here. -/
def atm (r : Int) (op : Operation) (b : Int) : Int :=
  atmLoop op.amount (iterations r) b

/-- `spawn_serial`: runs `atm` on each active operation one after another on
the single shared balance. -/
def spawn_serial_run (r S : Int) : Int :=
  activeOps.foldl (fun b op => atm r op b) S

/-- Outcome of `spawn_fork`: the parent's balance when the function returns,
the balances reported by the children that were actually forked (in fork
order), and whether the function signaled an error.  The C function returns
`void`, checks no error and reports none, so `errorSignaled` is always
`false` in the embedding. -/
structure ForkRun where
  parentBal : Int
  childReports : List Int
  errorSignaled : Bool
deriving DecidableEq

/-- `spawn_fork` with a fault model: `ff i = true` means the i-th `fork()`
call fails (returns -1).  The code tests only `fork() == 0`, which is false
both in the parent and on failure, so a failed fork simply falls through to
the next loop iteration: no child exists for that operation and no error is
checked.  A successful fork gives the child a private copy-on-write image of
the parent's balance at fork time; the child runs `atm` on that copy and
returns, so its mutations never reach the parent, whose balance is never
written in this function. -/
def spawn_fork_run (ff : Nat → Bool) (r S : Int) : ForkRun :=
  let res := activeOps.enum.foldl
    (fun (acc : Int × List Int) io =>
      if ff io.1 then acc
      else (acc.1, acc.2 ++ [atm r io.2 acc.1]))
    (S, [])
  ⟨res.1, res.2, false⟩

/-- Outcome of the creation loop of `spawn_pthread`: which operation indices
got a thread, and whether an error was signaled.  The return value of
`pthread_create` is ignored by the code, so no error is ever signaled. -/
structure PthreadRun where
  created : List Nat
  errorSignaled : Bool
deriving DecidableEq

/-- `spawn_pthread`'s creation phase with a fault model: `cf i = true` means
the i-th `pthread_create` fails.  The code ignores the returned error code
and keeps looping, so the run continues with the remaining threads. -/
def spawn_pthread_run (cf : Nat → Bool) : PthreadRun :=
  ⟨(List.range activeOps.length).filter fun i => !cf i, false⟩

/-- The four values of `--lib`, i.e. the four spawn methods. -/
inductive Strategy
  | serial
  | fork
  | pthread
  | pth
deriving DecidableEq

/-- The mutable option block `vars`: starting amount, repeat count, and the
selected spawn method. -/
structure Opts where
  amount : Int
  repeatCfg : Int
  lib : Strategy
deriving DecidableEq

/-- The defaults: DEFAULT_AMOUNT = 100000000, DEFAULT_REPEAT = 10000000,
lib = spawn_serial. -/
def defaultVars : Opts := ⟨100000000, 10000000, Strategy.serial⟩

/-- Value of the decimal digits at the head of `cs`, accumulated onto `acc`;
stops at the first non-digit. -/
def digitsVal : List Char → Nat → Nat
  | [], acc => acc
  | c :: cs, acc =>
      if c.isDigit then digitsVal cs (acc * 10 + (c.toNat - 48)) else acc

/-- C's `atol`: skip leading spaces, an optional sign, then the leading run
of decimal digits; yields 0 when there are no digits.  (On overflow `atol`
is undefined; the model returns the exact value.) -/
def atol (s : String) : Int :=
  let cs := s.toList.dropWhile fun c => c = ' '
  match cs with
  | [] => 0
  | c :: rest =>
      if c = '-' then -(digitsVal rest 0 : Int)
      else if c = '+' then (digitsVal rest 0 : Int)
      else (digitsVal (c :: rest) 0 : Int)

/-- One option as delivered by `getopt_long`: `--repeat ARG`, `--amount ARG`,
`--lib ARG`, `--help`, or an unrecognized option. -/
inductive RawOpt
  | optRepeat (arg : String)
  | optAmount (arg : String)
  | optLib (arg : String)
  | optHelp
  | optUnknown

/-- `parse_opts`: folds the options into `vars`.  Numeric arguments go
through `atol`; a `--lib` value other than the four known names, `--help`,
or an unknown option calls `usage()` which exits, modelled by `none`. -/
def parse_opts : List RawOpt → Opts → Option Opts
  | [], v => some v
  | RawOpt.optRepeat a :: rest, v =>
      parse_opts rest { v with repeatCfg := atol a }
  | RawOpt.optAmount a :: rest, v =>
      parse_opts rest { v with amount := atol a }
  | RawOpt.optLib a :: rest, v =>
      if a = "serial" then parse_opts rest { v with lib := Strategy.serial }
      else if a = "fork" then parse_opts rest { v with lib := Strategy.fork }
      else if a = "pthread" then parse_opts rest { v with lib := Strategy.pthread }
      else if a = "pth" then parse_opts rest { v with lib := Strategy.pth }
      else none
  | RawOpt.optHelp :: _, _ => none
  | RawOpt.optUnknown :: _, _ => none

/-- The `expected` computation in `main`: starting from the configured
amount, add `ops[i].amount * vars.repeat` for each active operation, in
`long` arithmetic. -/
def main_expected (S r : Int) : Int :=
  activeOps.foldl (fun e op => wrap64 (e + wrap64 (op.amount * r))) S

/-- The three driver report lines printed at the end of `main`. -/
structure MainResult where
  startBal : Int
  endBal : Int
  expectedBal : Int
deriving DecidableEq

/-- The end balance `main` observes in the original process, per strategy.
The pthread and pth strategies mutate the shared balance under a scheduler
the embedding does not fix, so their outcome is an abstract function `sched`
of the start balance. -/
def strategyEnd (strat : Strategy) (sched : Int → Int) (r S : Int) : Int :=
  match strat with
  | Strategy.serial => spawn_serial_run r S
  | Strategy.fork => (spawn_fork_run (fun _ => false) r S).parentBal
  | Strategy.pthread => sched S
  | Strategy.pth => sched S

/-- `main` after successful option parsing: sets the balance to the
configured amount, computes `expected` analytically, then invokes the
selected strategy and reports start/end/expected. -/
def main_with (strat : Strategy) (sched : Int → Int) (S r : Int) : MainResult :=
  ⟨S, strategyEnd strat sched r S, main_expected S r⟩

/-- `main` including option parsing: when `parse_opts` calls `usage()` the
process exits before any strategy is invoked, modelled by `none`. -/
def main_full (sched : Int → Int) (args : List RawOpt) : Option MainResult :=
  match parse_opts args defaultVars with
  | none => none
  | some v => some (main_with v.lib sched v.amount v.repeatCfg)

/-- How many processes execute the three report lines at the end of `main`.
Under serial/pthread/pth only the original process reaches them (a pthread
or pth thread terminates when `atm` returns).  Under fork, every child
returns from `spawn_fork` back into `main` instead of exiting, so the parent
and each forked child print the three lines. -/
def driverReportCount (strat : Strategy) : Nat :=
  match strat with
  | Strategy.fork => 1 + nr_ops (some opsTable)
  | _ => 1

/- ------------------------------------------------------------------ -/
/- Arithmetic helper lemmas about 64-bit wrapping.                     -/
/- ------------------------------------------------------------------ -/

lemma wrap64_inRange (x : Int) : inRange64 (wrap64 x) := by
  unfold wrap64 inRange64
  omega

lemma wrap64_eq_self (x : Int) (h : inRange64 x) : wrap64 x = x := by
  unfold wrap64 inRange64 at *
  omega

lemma wrap64_add_left (a b : Int) : wrap64 (wrap64 a + b) = wrap64 (a + b) := by
  unfold wrap64
  omega

lemma wrap64_add_right (a b : Int) : wrap64 (a + wrap64 b) = wrap64 (a + b) := by
  unfold wrap64
  omega

lemma wrap64_add_left3 (a b c : Int) :
    wrap64 (wrap64 a + b + c) = wrap64 (a + b + c) := by
  unfold wrap64
  omega

lemma wrap64_sub_mul (x k : Int) :
    wrap64 (x - 18446744073709551616 * k) = wrap64 x := by
  unfold wrap64
  omega

/-- The loop of `atm` in closed form: `n` wrapped additions of `a` to an
in-range starting balance `b` give the wrap of `b + n * a`. -/
lemma atmLoop_closed (a : Int) :
    ∀ (n : Nat) (b : Int), inRange64 b →
      atmLoop a n b = wrap64 (b + (n : Int) * a) := by
  intro n
  induction n with
  | zero =>
      intro b hb
      simp [atmLoop, wrap64_eq_self b hb]
  | succ n ih =>
      intro b hb
      rw [atmLoop, ih (wrap64 (b + a)) (wrap64_inRange _), wrap64_add_left]
      congr 1
      push_cast
      ring

/-- For an in-range nonnegative repeat count the loop bound is the repeat
count itself. -/
lemma iterations_of_nonneg (r : Int) (h0 : 0 ≤ r)
    (h1 : r < 9223372036854775808) : (iterations r : Int) = r := by
  unfold iterations
  rw [Int.toNat_of_nonneg (Int.emod_nonneg r (by norm_num))]
  omega

/-- `atm` in closed form for an in-range nonnegative repeat count. -/
lemma atm_balance (r : Int) (h0 : 0 ≤ r) (h1 : r < 9223372036854775808)
    (op : Operation) (b : Int) (hb : inRange64 b) :
    atm r op b = wrap64 (b + r * op.amount) := by
  unfold atm
  rw [atmLoop_closed op.amount (iterations r) b hb,
    iterations_of_nonneg r h0 h1]

lemma activeOps_eq :
    activeOps = [⟨6, some "Montreal"⟩, ⟨-4, some "Paris"⟩,
      ⟨7, some "Johannesburg"⟩, ⟨-3, some "Bangalore"⟩] := by
  rfl

lemma sumAmounts_eq : sumAmounts = 6 := by
  rfl

/-- Closed form of the serial strategy. -/
lemma spawn_serial_closed (r S : Int) (hS : inRange64 S) (h0 : 0 ≤ r)
    (h1 : r < 9223372036854775808) :
    spawn_serial_run r S = wrap64 (S + r * sumAmounts) := by
  rw [sumAmounts_eq]
  show List.foldl (fun b op => atm r op b) S activeOps = wrap64 (S + r * 6)
  rw [activeOps_eq]
  simp only [List.foldl]
  rw [atm_balance r h0 h1 _ S hS]
  rw [atm_balance r h0 h1 _ _ (wrap64_inRange _)]
  rw [atm_balance r h0 h1 _ _ (wrap64_inRange _)]
  rw [atm_balance r h0 h1 _ _ (wrap64_inRange _)]
  simp only [wrap64_add_left, wrap64_add_left3]
  congr 1
  ring

/-- The fold inside `spawn_fork` never changes the parent's balance and
collects, in order, one report per successful fork, each computed from the
parent's balance at fork time. -/
lemma fork_foldl (ff : Nat → Bool) (r S : Int) :
    ∀ (l : List (Nat × Operation)) (acc : List Int),
      l.foldl
        (fun (p : Int × List Int) io =>
          if ff io.1 then p else (p.1, p.2 ++ [atm r io.2 p.1]))
        (S, acc)
      = (S, acc ++ (l.filter fun io => !ff io.1).map fun io => atm r io.2 S) := by
  intro l
  induction l with
  | nil => intro acc; simp
  | cons hd tl ih =>
      intro acc
      cases hff : ff hd.1 with
      | false => simp [hff, ih]
      | true => simp [hff, ih]

lemma spawn_fork_general (ff : Nat → Bool) (r S : Int) :
    spawn_fork_run ff r S
      = ⟨S, (activeOps.enum.filter fun io => !ff io.1).map
              fun io => atm r io.2 S, false⟩ := by
  unfold spawn_fork_run
  rw [fork_foldl]
  simp

lemma spawn_fork_no_fail (r S : Int) :
    spawn_fork_run (fun _ => false) r S
      = ⟨S, activeOps.map fun op => atm r op S, false⟩ := by
  rw [spawn_fork_general]
  rfl

/-- Closed form of the driver's `expected` computation. -/
lemma main_expected_closed (S r : Int) :
    main_expected S r = wrap64 (S + r * sumAmounts) := by
  rw [sumAmounts_eq]
  show List.foldl (fun e op => wrap64 (e + wrap64 (op.amount * r))) S activeOps
      = wrap64 (S + r * 6)
  rw [activeOps_eq]
  simp only [List.foldl]
  simp only [wrap64_add_right, wrap64_add_left, wrap64_add_left3]
  congr 1
  ring

/-- The length of the kept-prefix of a table equals the index of the first
NULL-name entry, provided such an entry exists. -/
lemma length_takeWhile_eq_findIdx :
    ∀ l : List Operation, (∃ o ∈ l, o.name = none) →
      (l.takeWhile fun o => o.name.isSome).length
        = l.findIdx fun o => o.name.isNone := by
  intro l
  induction l with
  | nil =>
      intro h
      obtain ⟨o, ho, _⟩ := h
      exact absurd ho (List.not_mem_nil o)
  | cons a t ih =>
      intro h
      cases ha : a.name with
      | none => simp [List.takeWhile_cons, List.findIdx_cons, ha]
      | some s =>
          have h2 : ∃ o ∈ t, o.name = none := by
            obtain ⟨o, ho, hn⟩ := h
            cases List.mem_cons.mp ho with
            | inl he =>
                rw [he, ha] at hn
                exact absurd hn (by simp)
            | inr ho2 => exact ⟨o, ho2, hn⟩
          simp [List.takeWhile_cons, List.findIdx_cons, ha, ih h2]

/- ------------------------------------------------------------------ -/
/- Claim theorems.                                                     -/
/- ------------------------------------------------------------------ -/

/-- C1: for every configuration (in-range start balance S, repeat count
r ≥ 0 with the fixed table), the serial strategy's final balance is
S + r·Σaᵢ in 64-bit `long` arithmetic — exactly S + r·Σaᵢ whenever that
value fits a `long` — and the run is deterministic: two runs with an
identical configuration give identical balances. -/
theorem serial_strategy_correct (S r : Int) (hS : inRange64 S) (h0 : 0 ≤ r)
    (h1 : r < 9223372036854775808) :
    spawn_serial_run r S = wrap64 (S + r * sumAmounts) ∧
    (inRange64 (S + r * sumAmounts) → spawn_serial_run r S = S + r * sumAmounts) ∧
    spawn_serial_run r S = spawn_serial_run r S := by
  refine ⟨spawn_serial_closed r S hS h0 h1, ?_, rfl⟩
  intro hin
  rw [spawn_serial_closed r S hS h0 h1, wrap64_eq_self _ hin]

theorem serial_strategy_correct_witness :
    inRange64 100 ∧ (0 : Int) ≤ 3 ∧ (3 : Int) < 9223372036854775808 ∧
    spawn_serial_run 3 100 = wrap64 (100 + 3 * sumAmounts) :=
  ⟨by decide, by decide, by decide,
    (serial_strategy_correct 100 3 (by decide) (by decide) (by decide)).1⟩

/-- C2: under the fork strategy the parent's balance after the strategy
returns is the unchanged start balance S, while the i-th child's reported
balance is S + r·aᵢ in `long` arithmetic (exactly S + r·aᵢ whenever that
fits a `long`). -/
theorem fork_isolation (S r : Int) (hS : inRange64 S) (h0 : 0 ≤ r)
    (h1 : r < 9223372036854775808) :
    (spawn_fork_run (fun _ => false) r S).parentBal = S ∧
    (spawn_fork_run (fun _ => false) r S).childReports
      = (activeOps.map fun op => wrap64 (S + r * op.amount)) ∧
    ∀ op ∈ activeOps, inRange64 (S + r * op.amount) →
      wrap64 (S + r * op.amount) = S + r * op.amount := by
  refine ⟨?_, ?_, fun op _ hin => wrap64_eq_self _ hin⟩
  · rw [spawn_fork_no_fail]
  · rw [spawn_fork_no_fail]
    show (activeOps.map fun op => atm r op S) = _
    rw [activeOps_eq]
    simp only [List.map]
    rw [atm_balance r h0 h1 _ S hS, atm_balance r h0 h1 _ S hS,
      atm_balance r h0 h1 _ S hS, atm_balance r h0 h1 _ S hS]

theorem fork_isolation_witness :
    inRange64 100 ∧ (0 : Int) ≤ 2 ∧ (2 : Int) < 9223372036854775808 ∧
    (spawn_fork_run (fun _ => false) 2 100).parentBal = 100 :=
  ⟨by decide, by decide, by decide,
    (fork_isolation 100 2 (by decide) (by decide) (by decide)).1⟩

/-- C3: for every configuration and every strategy, the driver's expected
balance equals start plus the sum over operations of amount·repeat (in
`long` arithmetic), and it is a function of the configuration alone —
independent of the selected strategy and of any schedule, because `main`
computes it before invoking the strategy. -/
theorem driver_expected_analytic (strat : Strategy) (sched : Int → Int)
    (S r : Int) :
    (main_with strat sched S r).expectedBal
      = wrap64 (S + (activeOps.map fun op => op.amount * r).sum) ∧
    (main_with strat sched S r).expectedBal = main_expected S r := by
  constructor
  · show main_expected S r = _
    rw [main_expected_closed]
    congr 1
    rw [activeOps_eq, sumAmounts_eq]
    simp
    ring
  · rfl

/-- C6: with start balance 100000000, repeat 10000000 and the default
table, the serial strategy ends at exactly 160000000; the fork strategy's
driver-level end balance is exactly 100000000, and the children report
160000000, 60000000, 170000000 and 70000000. -/
theorem concrete_scenario :
    spawn_serial_run 10000000 100000000 = 160000000 ∧
    (spawn_fork_run (fun _ => false) 10000000 100000000).parentBal = 100000000 ∧
    (spawn_fork_run (fun _ => false) 10000000 100000000).childReports
      = [160000000, 60000000, 170000000, 70000000] := by
  have hb : inRange64 100000000 := by decide
  have h0 : (0 : Int) ≤ 10000000 := by norm_num
  have h1 : (10000000 : Int) < 9223372036854775808 := by norm_num
  refine ⟨?_, ?_, ?_⟩
  · rw [spawn_serial_closed 10000000 100000000 hb h0 h1]
    decide
  · rw [spawn_fork_no_fail]
  · rw [spawn_fork_no_fail]
    show (activeOps.map fun op => atm 10000000 op 100000000) = _
    rw [activeOps_eq]
    simp only [List.map]
    rw [atm_balance 10000000 h0 h1 _ 100000000 hb,
      atm_balance 10000000 h0 h1 _ 100000000 hb,
      atm_balance 10000000 h0 h1 _ 100000000 hb,
      atm_balance 10000000 h0 h1 _ 100000000 hb]
    decide

/-- C7 (code behavior at the failing input): under the fork strategy every
forked child returns from `spawn_fork` back into `main` and prints the
start/end/expected report again, so the three-line report is emitted
1 + nr_ops = 5 times, while the other strategies emit it once. -/
theorem fork_children_reprint_report :
    driverReportCount Strategy.fork = 1 + nr_ops (some opsTable) ∧
    driverReportCount Strategy.fork = 5 ∧
    driverReportCount Strategy.serial = 1 ∧
    driverReportCount Strategy.pthread = 1 ∧
    driverReportCount Strategy.pth = 1 := by
  decide

/-- C9: `nr_ops` returns 0 on a NULL table, 4 on the default table, and in
general the index of the first entry whose name is NULL. -/
theorem nr_ops_correct :
    nr_ops none = 0 ∧ nr_ops (some opsTable) = 4 ∧
    ∀ l : List Operation, (∃ o ∈ l, o.name = none) →
      nr_ops (some l) = l.findIdx fun o => o.name.isNone := by
  refine ⟨rfl, by decide, ?_⟩
  intro l h
  show (l.takeWhile fun o => o.name.isSome).length = _
  exact length_takeWhile_eq_findIdx l h

theorem nr_ops_correct_witness :
    (∃ o ∈ opsTable, o.name = none) ∧
    nr_ops (some opsTable) = opsTable.findIdx fun o => o.name.isNone := by
  have h : ∃ o ∈ opsTable, o.name = none := ⟨⟨0, none⟩, by decide, rfl⟩
  exact ⟨h, nr_ops_correct.2.2 opsTable h⟩

/-- C10: for a negative configured repeat count r, the loop bound of the
worker routine is r converted to unsigned 64-bit, i.e. 2^64 + r iterations,
never zero; and `atm` runs its loop exactly that many times. -/
theorem atm_negative_repeat_iterations (r : Int)
    (h0 : -9223372036854775808 ≤ r) (h1 : r < 0) :
    (iterations r : Int) = 18446744073709551616 + r ∧
    iterations r ≠ 0 ∧
    ∀ (op : Operation) (b : Int), atm r op b = atmLoop op.amount (iterations r) b := by
  have h2 : r % 18446744073709551616 = 18446744073709551616 + r := by omega
  refine ⟨?_, ?_, fun op b => rfl⟩
  · unfold iterations
    rw [h2, Int.toNat_of_nonneg (by omega)]
  · unfold iterations
    rw [h2]
    intro hc
    rw [Int.toNat_eq_zero] at hc
    omega

theorem atm_negative_repeat_iterations_witness :
    (-9223372036854775808 : Int) ≤ -1 ∧ (-1 : Int) < 0 ∧
    (iterations (-1) : Int) = 18446744073709551616 + -1 :=
  ⟨by norm_num, by norm_num,
    (atm_negative_repeat_iterations (-1) (by norm_num) (by norm_num)).1⟩

/-- C4 counterexample: a malformed numeric argument is not rejected —
`--repeat abc` goes through `atol`, which yields 0, and parsing succeeds,
so the run proceeds instead of terminating. -/
theorem malformed_numeric_accepted :
    parse_opts [RawOpt.optRepeat "abc"] defaultVars
      = some ⟨100000000, 0, Strategy.serial⟩ ∧
    atol "abc" = 0 := by
  constructor <;> rfl

/-- C4 amended: an unknown `--lib` value terminates the run before any
strategy starts (and so does a parse failure at `main`'s level), while
numeric arguments are converted with `atol` without any error check. -/
theorem parse_opts_behavior :
    (∀ (s : String) (v : Opts) (rest : List RawOpt),
        s ≠ "serial" → s ≠ "fork" → s ≠ "pthread" → s ≠ "pth" →
        parse_opts (RawOpt.optLib s :: rest) v = none) ∧
    (∀ (a : String) (v : Opts) (rest : List RawOpt),
        parse_opts (RawOpt.optRepeat a :: rest) v
          = parse_opts rest { v with repeatCfg := atol a }) ∧
    (∀ (a : String) (v : Opts) (rest : List RawOpt),
        parse_opts (RawOpt.optAmount a :: rest) v
          = parse_opts rest { v with amount := atol a }) ∧
    (∀ (sched : Int → Int) (args : List RawOpt),
        parse_opts args defaultVars = none → main_full sched args = none) := by
  refine ⟨?_, fun a v rest => rfl, fun a v rest => rfl, ?_⟩
  · intro s v rest h1 h2 h3 h4
    simp [parse_opts, h1, h2, h3, h4]
  · intro sched args h
    unfold main_full
    rw [h]

theorem parse_opts_behavior_witness :
    ("bogus" ≠ "serial" ∧ "bogus" ≠ "fork" ∧ "bogus" ≠ "pthread" ∧
      "bogus" ≠ "pth") ∧
    parse_opts [RawOpt.optLib "bogus"] defaultVars = none :=
  ⟨⟨by decide, by decide, by decide, by decide⟩,
    parse_opts_behavior.1 "bogus" defaultVars [] (by decide) (by decide)
      (by decide) (by decide)⟩

/-- C5 counterexample: a failed `fork()` (here for operation 0) is silently
ignored — the parent's loop continues, the remaining three children run and
report, no error is signaled and the run completes normally; likewise a
failed `pthread_create` only removes that thread. -/
theorem spawn_failure_ignored_example :
    spawn_fork_run (fun i => i == 0) 5 100 = ⟨100, [80, 135, 85], false⟩ ∧
    spawn_pthread_run (fun i => i == 0) = ⟨[1, 2, 3], false⟩ := by
  constructor <;> decide

/-- C5 amended: creation failures are never fatal and never retried — for
every failure pattern, `spawn_fork` completes with the parent balance
untouched and exactly the successfully forked children reporting, signaling
no error; `spawn_pthread` creates exactly the threads whose creation
succeeded and signals no error. -/
theorem spawn_failure_ignored :
    (∀ (ff : Nat → Bool) (r S : Int),
        spawn_fork_run ff r S
          = ⟨S, (activeOps.enum.filter fun io => !ff io.1).map
                  fun io => atm r io.2 S, false⟩) ∧
    (∀ (cf : Nat → Bool) (i : Nat),
        i ∈ (spawn_pthread_run cf).created ↔
          i < activeOps.length ∧ cf i = false) ∧
    (∀ cf : Nat → Bool, (spawn_pthread_run cf).errorSignaled = false) := by
  refine ⟨spawn_fork_general, ?_, fun cf => rfl⟩
  intro cf i
  unfold spawn_pthread_run
  simp [List.mem_filter, List.mem_range]

end Banque
